import Mathlib

/-!
Shallow embedding of the FlavourCraft backend (Python sources under
`src/backend/`) for checking the frozen claims: the input validators, the
JWT helpers, the ingredient-detection pipeline and its merge policy, the
recipe-response parser, the model monitor's quick drift check, the cuisine
time statistics, the multi-image upload aggregation, and the
account-deletion route.

Machine reals are modelled as exact rationals (`ℚ`); Python's built-in
`round(x, n)` (round half to even) is modelled exactly on rationals.
Python strings are modelled as Lean `String`s, with the handful of string
operations the code uses (`strip`, `lower`, `split`, `replace`,
`startswith`, digit filtering) re-implemented structurally over the
character list so that they are faithful to Python's behaviour on the
ASCII inputs involved and evaluate by kernel reduction.
-/

namespace FlavourCraft


/-- Round a rational to the nearest integer, halves to even: the rounding
mode of Python's built-in `round`. -/
def roundHalfEven (x : ℚ) : ℤ :=
  let f := ⌊x⌋
  let frac := x - (f : ℚ)
  if frac < 1/2 then f
  else if 1/2 < frac then f + 1
  else if 2 ∣ f then f else f + 1

/-- Python's `round(x, 2)` on exact rationals. -/
def round2 (x : ℚ) : ℚ := (roundHalfEven (x * 100) : ℚ) / 100

/-- Python's `round(x, 1)` on exact rationals. -/
def round1 (x : ℚ) : ℚ := (roundHalfEven (x * 10) : ℚ) / 10

/-- Strip leading and trailing whitespace from a character list (both ends
of Python's `str.strip()` with no argument). -/
def stripList (l : List Char) : List Char :=
  ((l.dropWhile Char.isWhitespace).reverse.dropWhile Char.isWhitespace).reverse

/-- Python's `str.strip()`. -/
def pyStrip (s : String) : String := ⟨stripList s.data⟩

/-- Python's `str.lower()` (ASCII case mapping, which covers every string
the embedded code compares). -/
def pyLower (s : String) : String := ⟨s.data.map Char.toLower⟩

/-- Python's `', '.join(...)` style joining. -/
def joinWith (sep : String) : List String → String
  | [] => ""
  | [x] => x
  | x :: y :: xs => x ++ sep ++ joinWith sep (y :: xs)

/-- Split a character list on a separator character; mirrors Python's
`str.split(c)` (so the empty string yields `[""]`). -/
def splitOnChar (c : Char) : List Char → List (List Char)
  | [] => [[]]
  | a :: rest =>
    let r := splitOnChar c rest
    if a = c then [] :: r
    else
      match r with
      | [] => [[a]]
      | h :: t => (a :: h) :: t

/-- Everything after the first occurrence of `c`, or the whole list if `c`
does not occur: Python's `line.split(c, 1)[-1]`. -/
def afterFirst (c : Char) (l : List Char) : List Char :=
  match l.dropWhile (fun a => a ≠ c) with
  | [] => l
  | _ :: rest => rest

/-- Remove every (non-overlapping, left-to-right) occurrence of `pat`:
Python's `s.replace(pat, '')`. The `fuel` argument is the input length;
it makes the recursion structural. -/
def removeOccAux (pat : List Char) : Nat → List Char → List Char
  | 0, l => l
  | _ + 1, [] => []
  | fuel + 1, a :: rest =>
    if pat ≠ [] ∧ pat.isPrefixOf (a :: rest) then
      removeOccAux pat fuel ((a :: rest).drop pat.length)
    else a :: removeOccAux pat fuel rest

/-- Python's `s.replace(pat, '')` over character lists. -/
def removeOcc (pat l : List Char) : List Char := removeOccAux pat l.length l

/-- Parse a non-empty all-digit character list as a natural number:
Python's `int(...)` on the output of `filter(str.isdigit, ...)`, which
raises (modelled as `none`) exactly on the empty string. -/
def digitsToNat : List Char → Option Nat
  | [] => none
  | l => some (l.foldl (fun n c => n * 10 + (c.toNat - 48)) 0)

/-! ### `src/backend/utils/validators.py` -/

/-- The fixed special-character set of `validate_password_strength`. -/
def specialChars : List Char := "!@#$%^&*(),.?\":\x7b\x7d|<>".data

/-- Embeds `validate_password_strength` (validators.py lines 43-74): the five
rules checked in order, returning the reason of the first failing rule. -/
def validate_password_strength (password : String) : Bool × String :=
  if password.length < 8 then
    (false, "Password must be at least 8 characters long")
  else if ¬ password.data.any Char.isUpper then
    (false, "Password must contain at least one uppercase letter")
  else if ¬ password.data.any Char.isLower then
    (false, "Password must contain at least one lowercase letter")
  else if ¬ password.data.any Char.isDigit then
    (false, "Password must contain at least one digit")
  else if ¬ password.data.any (fun c => specialChars.contains c) then
    (false, "Password must contain at least one special character")
  else
    (true, "")

/-- The loop of `validate_ingredients` (validators.py lines 139-153):
`cleaned` is the returned accumulator, `seen` the set of lower-cased
entries already kept (modelled as a list). -/
def validateIngredientsGo : List String → List String → List String
  | [], _ => []
  | ingredient :: rest, seen =>
    let cleaned_ingredient := pyStrip ingredient
    let ingredient_lower := pyLower cleaned_ingredient
    if cleaned_ingredient ≠ "" ∧ ingredient_lower ∉ seen then
      cleaned_ingredient :: validateIngredientsGo rest (ingredient_lower :: seen)
    else
      validateIngredientsGo rest seen

/-- Embeds `validate_ingredients` (validators.py lines 125-153). -/
def validate_ingredients (ingredients : List String) : List String :=
  validateIngredientsGo ingredients []

/-! ### `src/backend/services/recipe_service.py`, `_parse_recipe_response` -/

/-- The fields of `GeneratedRecipeRequest` that `_parse_recipe_response`
reads (models/generated_recipe.py). -/
structure GeneratedRecipeRequest where
  ingredients : List String
  cooking_time : Option Nat
  difficulty : Option String

/-- Embeds `GeneratedRecipe` (models/generated_recipe.py). -/
structure GeneratedRecipe where
  title : String
  steps : List String
  estimated_time : Nat
  difficulty : String
  tips : Option String
  servings : Nat

/-- The mutable locals of `_parse_recipe_response`'s line loop
(recipe_service.py lines 228-235). -/
structure ParseState where
  title : String
  steps : List String
  estimated_time : Nat
  difficulty : String
  tips : Option String
  servings : Nat
  current_section : Option String

/-- Embeds `title = "Custom Recipe"; steps = []; estimated_time = request.cooking_time
or 30; difficulty = request.difficulty or "medium"; tips = None; servings = 4;
current_section = None`. -/
def initParseState (request : GeneratedRecipeRequest) : ParseState :=
  ⟨"Custom Recipe", [], request.cooking_time.getD 30, request.difficulty.getD "medium",
   none, 4, none⟩

/-- One iteration of the `for line in lines` loop of `_parse_recipe_response`
(recipe_service.py lines 237-267). -/
def parseLine (st : ParseState) (line0 : String) : ParseState :=
  match stripList line0.data with
  | [] => st
  | a :: rest =>
    let line : List Char := a :: rest
    if ("TITLE:".data).isPrefixOf line then
      { st with title := ⟨stripList (removeOcc "TITLE:".data line)⟩ }
    else if ("STEPS:".data).isPrefixOf line then
      { st with current_section := some "steps" }
    else if ("TIME:".data).isPrefixOf line then
      match digitsToNat ((stripList (removeOcc "TIME:".data line)).filter Char.isDigit) with
      | some n => { st with estimated_time := n }
      | none => st
    else if ("DIFFICULTY:".data).isPrefixOf line then
      let diff := (stripList (removeOcc "DIFFICULTY:".data line)).map Char.toLower
      if (⟨diff⟩ : String) ∈ (["easy", "medium", "hard"] : List String) then
        { st with difficulty := ⟨diff⟩ }
      else st
    else if ("TIPS:".data).isPrefixOf line then
      { st with tips := some ⟨stripList (removeOcc "TIPS:".data line)⟩ }
    else if ("SERVINGS:".data).isPrefixOf line then
      match digitsToNat (line.filter Char.isDigit) with
      | some n => { st with servings := n }
      | none => st
    else if st.current_section = some "steps" ∧ a.isDigit then
      let step := stripList (afterFirst '.' line)
      if step ≠ [] then { st with steps := st.steps ++ [(⟨step⟩ : String)] } else st
    else st

/-- The parser state after the whole line loop, starting from
`content.strip().split('\n')`. -/
def parseLoop (request : GeneratedRecipeRequest) (content : String) : ParseState :=
  (((splitOnChar '\n' (stripList content.data)).map
      (fun l => (⟨l⟩ : String))).foldl parseLine (initParseState request))

/-- The steps recognized by the line-by-line parse, before the minimum-step
fallback is applied. -/
def rawParsedSteps (request : GeneratedRecipeRequest) (content : String) : List String :=
  (parseLoop request content).steps

/-- The generic fallback step list substituted when fewer than 3 steps were
parsed (recipe_service.py lines 270-275). -/
def fallbackSteps (request : GeneratedRecipeRequest) : List String :=
  ["Prepare all ingredients: " ++ joinWith ", " request.ingredients,
   "Follow the cooking process carefully",
   "Serve hot and enjoy!"]

/-- Embeds `_parse_recipe_response` (recipe_service.py lines 220-284). -/
def parseRecipeResponse (request : GeneratedRecipeRequest) (content : String) :
    GeneratedRecipe :=
  let st := parseLoop request content
  let steps := if st.steps.length < 3 then fallbackSteps request else st.steps
  ⟨st.title, steps, st.estimated_time, st.difficulty, st.tips, st.servings⟩

/-! ### `src/backend/services/ingredient_service.py` -/

/-- The fixed ingredient-label catalog loaded by `_initialize_local_model`
(ingredient_service.py lines 105-135). -/
def ingredient_labels : List String :=
  ["tomatoes", "onions", "garlic", "potatoes", "carrots", "bell peppers",
   "green beans", "broccoli", "cauliflower", "spinach", "lettuce", "cabbage",
   "cucumber", "zucchini", "eggplant", "celery", "mushrooms", "corn",
   "apples", "bananas", "oranges", "lemons", "limes", "strawberries",
   "blueberries", "grapes", "watermelon", "pineapple", "mango", "avocado",
   "chicken", "beef", "pork", "fish", "shrimp", "eggs", "tofu",
   "salmon", "tuna", "bacon", "ground meat",
   "milk", "cheese", "butter", "yogurt", "cream", "mozzarella", "cheddar",
   "rice", "pasta", "bread", "flour", "noodles", "quinoa", "oats",
   "basil", "cilantro", "parsley", "rosemary", "thyme", "oregano",
   "ginger", "chili peppers", "black pepper", "salt",
   "olive oil", "vegetable oil", "soy sauce", "vinegar", "ketchup",
   "mayonnaise", "mustard", "honey",
   "canned tomatoes", "tomato sauce", "beans", "chickpeas", "coconut milk"]

/-- Embeds `confidence_threshold = 0.15` (ingredient_service.py line 196). -/
def confidence_threshold : ℚ := 15/100

/-- The `for idx, prob in enumerate(probabilities)` retention loop of
`detect_ingredients_local` (ingredient_service.py lines 198-202), walking
the label catalog alongside the probability vector. -/
def retainLoop : List String → List ℚ → List String × List ℚ
  | _, [] => ([], [])
  | [], _ :: _ => ([], [])
  | label :: labels, p :: ps =>
    let r := retainLoop labels ps
    if confidence_threshold < p then (label :: r.1, p :: r.2) else r

/-- The classification core of `detect_ingredients_local`
(ingredient_service.py lines 196-262), as a function of the per-label
probability vector produced by the CLIP model: retain labels above the
threshold, sort retained pairs by descending probability (Python's
`sorted` is a stable sort, modelled by the stable `List.mergeSort`), keep
the top 10 names, and average the retained scores. -/
def detect_ingredients_local_core (probabilities : List ℚ) : List String × ℚ :=
  let r := retainLoop ingredient_labels probabilities
  let ingredients := r.1
  let scores := r.2
  if ingredients ≠ [] then
    let sorted_pairs := (ingredients.zip scores).mergeSort (fun a b => decide (b.2 ≤ a.2))
    ((sorted_pairs.take 10).map Prod.fst, scores.sum / (scores.length : ℚ))
  else ([], 0)

/-- The result dictionary of `merge_detection_results`
(ingredient_service.py lines 412-419), with the optional message field the
pipeline can attach afterwards (lines 523-525 / 474-482). -/
structure MergedResult where
  ingredients : List String
  confidence : ℚ
  source : String
  local_detected : Nat
  openai_detected : Nat
  total_unique : Nat
  message : Option String

/-- Embeds `merge_detection_results` (ingredient_service.py lines 381-419). -/
def merge_detection_results (local_results openai_results : List String × ℚ) :
    MergedResult :=
  let local_ingredients := local_results.1
  let local_confidence := local_results.2
  let openai_ingredients := openai_results.1
  let openai_confidence := openai_results.2
  let all_ingredients := local_ingredients ++ openai_ingredients
  let unique_ingredients := validate_ingredients all_ingredients
  let tc_source : ℚ × String :=
    if 0 < local_confidence ∧ 0 < openai_confidence then
      ((local_confidence + openai_confidence) / 2, "hybrid")
    else if 0 < openai_confidence then (openai_confidence, "openai")
    else if 0 < local_confidence then (local_confidence, "local")
    else (0, "none")
  ⟨unique_ingredients, round2 tc_source.1, tc_source.2,
   local_ingredients.length, openai_ingredients.length, unique_ingredients.length, none⟩

/-- The configuration bits `detect_ingredients` branches on: whether the
CLIP model loaded, `USE_LOCAL_MODELS`, and whether an OpenAI client is
configured. -/
structure DetectConfig where
  local_model_loaded : Bool
  use_local_models : Bool
  openai_client : Bool

/-- A `detect_ingredients` run: the merged result plus which tiers ran. -/
structure DetectOutcome where
  merged : MergedResult
  local_ran : Bool
  openai_ran : Bool

/-- The zero-result remediation message attachment (ingredient_service.py
lines 522-525). -/
def attachMessage (m : MergedResult) : MergedResult :=
  if m.total_unique = 0 then
    { m with message := some "No ingredients detected. Try: 1) Better lighting, 2) Close-up photos, 3) Clear individual ingredients" }
  else m

/-- Embeds `detect_ingredients` (ingredient_service.py lines 421-530), as a
function of the configuration and of the results the two tier detectors
would return for the image at hand (the CLIP / OpenAI inference itself is
external; the best-effort telemetry, which never affects the returned
result, is not modelled). -/
def detect_ingredients (cfg : DetectConfig)
    (local_detect openai_detect : List String × ℚ) : DetectOutcome :=
  if cfg.local_model_loaded ∧ cfg.use_local_models then
    if (40/100 : ℚ) ≤ local_detect.2 ∧ 0 < local_detect.1.length then
      ⟨attachMessage (merge_detection_results local_detect ([], 0)), true, false⟩
    else if cfg.openai_client then
      ⟨attachMessage (merge_detection_results local_detect openai_detect), true, true⟩
    else
      ⟨attachMessage (merge_detection_results local_detect ([], 0)), true, false⟩
  else if cfg.openai_client then
    ⟨attachMessage (merge_detection_results ([], 0) openai_detect), false, true⟩
  else
    ⟨⟨[], 0, "none", 0, 0, 0,
      some "No AI models configured. Please set USE_LOCAL_MODELS=true or add OPENAI_API_KEY"⟩,
     false, false⟩

/-! ### `src/backend/services/model_monitoring_service.py`, `check_drift` -/

/-- The MLOps settings fields `check_drift` and `set_baseline` read
(mlops_config.py): drift threshold default 0.15, baseline defaults
confidence mean/std 0.70/0.15 and latency mean/std 2.0/0.5. -/
structure MlopsSettings where
  DRIFT_DETECTION_THRESHOLD : ℚ
  BASELINE_CONFIDENCE_MEAN : ℚ
  BASELINE_CONFIDENCE_STD : ℚ
  BASELINE_LATENCY_MEAN : ℚ
  BASELINE_LATENCY_STD : ℚ

/-- The documented defaults of the MLOps settings. -/
def defaultMlopsSettings : MlopsSettings := ⟨15/100, 70/100, 15/100, 2, 1/2⟩

/-- A per-model baseline record (`set_baseline`, monitoring service lines
141-160; the prediction-distribution map and timestamp play no role in
`check_drift` and are omitted). -/
structure Baseline where
  confidence_mean : ℚ
  confidence_std : ℚ
  latency_mean : ℚ
  latency_std : ℚ

/-- A drift event as appended to the monitor's persistent
`drift_events` list (by `detect_drift`, never by `check_drift`). -/
structure DriftEvent where
  model_name : String
  drift_type : String
  drift_score : ℚ
  severity : String

/-- The monitor state `check_drift` reads and writes: the per-model
baselines and the persistent drift-event list. -/
structure MonitorState where
  baseline_stats : List (String × Baseline)
  drift_events : List DriftEvent

/-- The float `1e-10` added to the denominator to avoid division by
zero. -/
def driftEpsilon : ℚ := 1/10000000000

/-- The `current_metrics` dict passed to `check_drift`: an optional
`confidence` entry and an optional `latency` entry. -/
structure CurrentMetrics where
  confidence : Option ℚ
  latency : Option ℚ

/-- The result dictionary of `check_drift` (monitoring service lines
232-239), extended with the severity tag that a flagged drift reports to
the drift-event counter (line 227) — `none` when no drift was flagged. -/
structure DriftCheckResult where
  drift_detected : Bool
  drift_score : ℚ
  drift_type : String
  confidence_deviation : Option ℚ
  latency_deviation : Option ℚ
  threshold : ℚ
  severityReported : Option String

/-- Embeds `set_baseline` (monitoring service lines 141-160) restricted to the
fields `check_drift` uses, here with an empty `baseline_data` dict as in
the auto-initialization path, so every field takes its settings default. -/
def set_baseline_defaults (settings : MlopsSettings) (st : MonitorState)
    (model_name : String) : MonitorState :=
  ⟨(model_name, ⟨settings.BASELINE_CONFIDENCE_MEAN, settings.BASELINE_CONFIDENCE_STD,
      settings.BASELINE_LATENCY_MEAN, settings.BASELINE_LATENCY_STD⟩) ::
    st.baseline_stats, st.drift_events⟩

/-- Embeds `check_drift` (monitoring service lines 162-239): auto-initialize a
missing baseline, take the maximum per-present-metric deviation as the
drift score, flag drift above the threshold, and (only) report a
severity-tagged quick-check drift event to the metrics counters. -/
def check_drift (settings : MlopsSettings) (st : MonitorState) (model_name : String)
    (current_metrics : CurrentMetrics) : DriftCheckResult × MonitorState :=
  let st₁ :=
    match st.baseline_stats.lookup model_name with
    | some _ => st
    | none => set_baseline_defaults settings st model_name
  let baseline := (st₁.baseline_stats.lookup model_name).getD
    ⟨settings.BASELINE_CONFIDENCE_MEAN, settings.BASELINE_CONFIDENCE_STD,
     settings.BASELINE_LATENCY_MEAN, settings.BASELINE_LATENCY_STD⟩
  let conf_dev := current_metrics.confidence.map
    (fun c => |c - baseline.confidence_mean| / (baseline.confidence_std + driftEpsilon))
  let score₁ : ℚ := max 0 (conf_dev.getD 0)
  let lat_dev := current_metrics.latency.map
    (fun c => |c - baseline.latency_mean| / (baseline.latency_std + driftEpsilon))
  let drift_score : ℚ := max score₁ (lat_dev.getD 0)
  let drift_detected : Bool := decide (settings.DRIFT_DETECTION_THRESHOLD < drift_score)
  let sev : Option String :=
    if drift_detected then some (if (3/10 : ℚ) < drift_score then "high" else "medium")
    else none
  (⟨drift_detected, drift_score, "quick_check", conf_dev, lat_dev,
    settings.DRIFT_DETECTION_THRESHOLD, sev⟩, st₁)

/-- The deviation of an optionally-present metric from its baseline, in
units of baseline standard deviation (with the 1e-10 epsilon); 0 when the
metric is absent. -/
def metricDeviation (current : Option ℚ) (mean std : ℚ) : ℚ :=
  match current with
  | none => 0
  | some c => |c - mean| / (std + driftEpsilon)

/-! ### `src/backend/utils/hashing.py` -/

/-- The environment as the JWT helpers read it: the optional
`JWT_SECRET_KEY` (the algorithm and lifetimes keep their defaults). -/
structure JwtEnv where
  jwt_secret_key : Option String

/-- A JWT payload as built by the token creators: the caller's claims,
the `exp` claim (seconds timestamp) and the `type` claim. -/
structure JwtPayload where
  data : List (String × String)
  exp : Nat
  type : String

/-- Modelled behaviour of the external `jose` JWT library: a signed token
carries its payload and the signing secret; `jwt.decode` with
verification succeeds exactly when the secrets agree and the token is not
expired, and otherwise raises a `JWTError` (modelled as `none`). -/
inductive JwtToken where
  | signed (payload : JwtPayload) (secret : String)

/-- Embeds `jose.jwt.encode`. -/
def jwtEncode (payload : JwtPayload) (secret : String) : JwtToken :=
  .signed payload secret

/-- Embeds `jose.jwt.decode` with signature and expiry verification, at time
`now`. -/
def jwtDecode (tok : JwtToken) (secret : String) (now : Nat) : Option JwtPayload :=
  match tok with
  | .signed payload secret' =>
    if secret' = secret ∧ now < payload.exp then some payload else none

/-- Embeds `ACCESS_TOKEN_EXPIRE_MINUTES` default (hashing.py line 55). -/
def ACCESS_TOKEN_EXPIRE_MINUTES : Nat := 720

/-- Embeds `REFRESH_TOKEN_EXPIRE_DAYS` default (hashing.py line 89). -/
def REFRESH_TOKEN_EXPIRE_DAYS : Nat := 7

/-- Embeds `create_access_token` (hashing.py lines 41-73): raises `ValueError`
(modelled as `Except.error`) when the signing secret is absent, otherwise
signs the claims plus `exp` and `type="access"`. `expires_delta` is in
seconds, `now` the current time. -/
def create_access_token (env : JwtEnv) (data : List (String × String))
    (expires_delta : Option Nat) (now : Nat) : Except String JwtToken :=
  match env.jwt_secret_key with
  | none => .error "JWT_SECRET_KEY environment variable is not set"
  | some secret =>
    let expire :=
      match expires_delta with
      | some d => now + d
      | none => now + ACCESS_TOKEN_EXPIRE_MINUTES * 60
    .ok (jwtEncode ⟨data, expire, "access"⟩ secret)

/-- Embeds `create_refresh_token` (hashing.py lines 76-103). -/
def create_refresh_token (env : JwtEnv) (data : List (String × String)) (now : Nat) :
    Except String JwtToken :=
  match env.jwt_secret_key with
  | none => .error "JWT_SECRET_KEY environment variable is not set"
  | some secret =>
    .ok (jwtEncode ⟨data, now + REFRESH_TOKEN_EXPIRE_DAYS * 86400, "refresh"⟩ secret)

/-- Embeds `decode_token` (hashing.py lines 106-131): `None` when the secret is
absent, `None` on any `JWTError` from verification, otherwise the decoded
payload. -/
def decode_token (env : JwtEnv) (tok : JwtToken) (now : Nat) : Option JwtPayload :=
  match env.jwt_secret_key with
  | none => none
  | some secret => jwtDecode tok secret now

/-! ### `src/backend/routes/users.py`, `delete_user_account` -/

/-- A `generated_recipes` document as the deletion cascade and the
owner-scoped lookup see it. -/
structure GenRecipeDoc where
  id : String
  user_id : String

/-- A `users` document (identifier plus a representative payload field). -/
structure UserDoc where
  id : String
  email : String

/-- The two collections `delete_user_account` touches. -/
structure Db where
  users : List UserDoc
  generated_recipes : List GenRecipeDoc

/-- Embeds `db.users.delete_one({"_id": uid})`: remove the first matching
document, returning the new collection and the `deleted_count`. -/
def deleteOneUser : List UserDoc → String → List UserDoc × Nat
  | [], _ => ([], 0)
  | u :: rest, uid =>
    if u.id = uid then (rest, 1)
    else
      let r := deleteOneUser rest uid
      (u :: r.1, r.2)

/-- Embeds `delete_user_account` (routes/users.py lines 211-257): delete every
generated recipe with the caller's `user_id`, then the user document; the
Bool is `false` for the 404 "User not found" path. -/
def delete_user_account (db : Db) (uid : String) : Bool × Db :=
  let recipes := db.generated_recipes.filter (fun r => ¬ r.user_id = uid)
  let del := deleteOneUser db.users uid
  if del.2 = 0 then (false, ⟨del.1, recipes⟩) else (true, ⟨del.1, recipes⟩)

/-- User lookup by id (`db.users.find_one({"_id": ...})`). -/
def findUserById (db : Db) (uid : String) : Option UserDoc :=
  db.users.find? (fun u => u.id = uid)

/-- Owner-scoped generated-recipe lookup, as the recipe routes perform it
(`{"_id": rid, "user_id": uid}`). -/
def findUserRecipe (db : Db) (uid rid : String) : Option GenRecipeDoc :=
  db.generated_recipes.find? (fun r => r.id = rid ∧ r.user_id = uid)

/-! ### `src/backend/services/cuisine_service.py`, time statistics -/

/-- The three-bucket cooking-time distribution (`time_distribution`,
cuisine_service.py lines 283-287; the `30_60` key is `thirty_sixty`
here). -/
structure TimeDistribution where
  under_30 : Nat
  thirty_sixty : Nat
  over_60 : Nat

/-- One iteration of the time loop of `get_cuisine_detailed_stats`
(cuisine_service.py lines 290-299): non-positive times (the `.get(...,
0)` default for absent fields) are excluded entirely; otherwise the time
joins `cooking_times` and exactly one bucket. -/
def timeBucketStep (acc : TimeDistribution × List Int) (time : Int) :
    TimeDistribution × List Int :=
  if 0 < time then
    (if time < 30 then ⟨acc.1.under_30 + 1, acc.1.thirty_sixty, acc.1.over_60⟩
     else if time ≤ 60 then ⟨acc.1.under_30, acc.1.thirty_sixty + 1, acc.1.over_60⟩
     else ⟨acc.1.under_30, acc.1.thirty_sixty, acc.1.over_60 + 1⟩,
     acc.2 ++ [time])
  else acc

/-- The time-distribution / average-cooking-time slice of
`get_cuisine_detailed_stats` (cuisine_service.py lines 282-299 and 323),
over the matching recipes' `estimated_time` values:
`avg_cooking_time = round(sum(cooking_times)/len(cooking_times), 1)`,
`None` when no positive time was seen. -/
def cuisineTimeStats (times : List Int) : TimeDistribution × Option ℚ :=
  let r := times.foldl timeBucketStep (⟨0, 0, 0⟩, [])
  (r.1,
   if r.2 ≠ [] then
     some (round1 (((r.2.map (fun t => (t : ℚ))).sum) / (r.2.length : ℚ)))
   else none)

/-! ### `src/backend/routes/upload.py`, `upload_multiple_images` -/

/-- What the multi-upload loop sees of one submitted file: the outcome of
`validate_image_file`, and the ingredient list and (already
two-decimal-rounded) confidence that `detect_ingredients` returns for
it. -/
structure UploadFileModel where
  valid : Bool
  ingredients : List String
  confidence : ℚ
  deriving DecidableEq

/-- The per-file loop of `upload_multiple_images` (upload.py lines
132-176): an invalid file is skipped (`continue`), a valid file extends
`all_ingredients` and adds its confidence to `total_confidence`. -/
def multiLoop : List UploadFileModel → List String × ℚ
  | [] => ([], 0)
  | f :: rest =>
    let r := multiLoop rest
    if f.valid then (f.ingredients ++ r.1, f.confidence + r.2) else r

/-- The case-insensitive de-duplication of upload.py lines 178-185 (note:
unlike `validate_ingredients`, no trimming and no empty-dropping). -/
def dedupIngredients : List String → List String → List String
  | [], _ => []
  | ing :: rest, seen =>
    let lower := pyLower ing
    if lower ∉ seen then ing :: dedupIngredients rest (lower :: seen)
    else dedupIngredients rest seen

/-- The fields of the multi-upload response the claim is about. -/
structure MultiUploadResult where
  total_images : Nat
  ingredients : List String
  average_confidence : ℚ

/-- Embeds `upload_multiple_images` (upload.py lines 108-200): `none` models the
400 response for more than 5 files; otherwise
`average_confidence = round(total_confidence / len(files), 2)`, dividing
by the count of all submitted files, skipped ones included. -/
def upload_multiple_images (files : List UploadFileModel) :
    Option MultiUploadResult :=
  if 5 < files.length then none
  else
    let r := multiLoop files
    let avg : ℚ := if files ≠ [] then r.2 / (files.length : ℚ) else 0
    some ⟨files.length, dedupIngredients r.1 [], round2 avg⟩

/-- The mean confidence over the files actually processed (the valid
ones) — the quantity the claim compares the reported average against. -/
def processedMeanConfidence (files : List UploadFileModel) : ℚ :=
  ((files.filter (fun f => f.valid)).map (fun f => f.confidence)).sum /
    ((files.filter (fun f => f.valid)).length : ℚ)

theorem dropWhile_head_not {α} (q : α → Bool) (l : List α) {a : α} {t : List α}
    (h : l.dropWhile q = a :: t) : q a = false := by
  induction l with
  | nil => simp [List.dropWhile] at h
  | cons x xs ih =>
    rw [List.dropWhile_cons] at h
    split at h
    · exact ih h
    · next hx => cases h; simpa using hx

theorem dropWhile_self {α} (q : α → Bool) (l : List α) :
    (l.dropWhile q).dropWhile q = l.dropWhile q := by
  cases h : l.dropWhile q with
  | nil => rfl
  | cons a t => rw [List.dropWhile_cons, dropWhile_head_not q l h]; simp

theorem getLast?_of_suffix {α} {l₁ l₂ : List α} (h : l₁ <:+ l₂) (hne : l₁ ≠ []) :
    l₂.getLast? = l₁.getLast? := by
  obtain ⟨t, rfl⟩ := h
  rw [List.getLast?_append_of_ne_nil _ hne]

theorem stripList_head_not {l : List Char} {a : Char} {t : List Char}
    (h : stripList l = a :: t) : a.isWhitespace = false := by
  unfold stripList at h
  have hne : (l.dropWhile Char.isWhitespace).reverse.dropWhile Char.isWhitespace ≠ [] := by
    intro h0; rw [h0] at h; simp at h
  have h1 : ((l.dropWhile Char.isWhitespace).reverse).getLast? =
      ((l.dropWhile Char.isWhitespace).reverse.dropWhile Char.isWhitespace).getLast? :=
    getLast?_of_suffix (List.dropWhile_suffix _) hne
  have h2 : ((l.dropWhile Char.isWhitespace).reverse.dropWhile Char.isWhitespace).getLast? =
      some a := by
    have h3 := congrArg List.head? h
    rw [List.head?_reverse] at h3
    simpa using h3
  rw [h2, List.getLast?_reverse] at h1
  -- h1 : (l.dropWhile Char.isWhitespace).head? = some a
  cases hm : l.dropWhile Char.isWhitespace with
  | nil => rw [hm] at h1; simp at h1
  | cons b t' =>
    rw [hm] at h1
    simp at h1
    subst h1
    exact dropWhile_head_not _ l hm

theorem dropWhile_stripList (l : List Char) :
    (stripList l).dropWhile Char.isWhitespace = stripList l := by
  cases h : stripList l with
  | nil => rfl
  | cons a t => rw [List.dropWhile_cons, stripList_head_not h]; simp

theorem stripList_idem (l : List Char) : stripList (stripList l) = stripList l := by
  have h1 : (stripList l).reverse =
      (l.dropWhile Char.isWhitespace).reverse.dropWhile Char.isWhitespace := by
    rw [stripList, List.reverse_reverse]
  show (((stripList l).dropWhile Char.isWhitespace).reverse.dropWhile
      Char.isWhitespace).reverse = stripList l
  rw [dropWhile_stripList, h1, dropWhile_self, ← h1, List.reverse_reverse]

theorem pyStrip_idem (s : String) : pyStrip (pyStrip s) = pyStrip s :=
  congrArg String.mk (stripList_idem s.data)

theorem validateIngredientsGo_spec (l : List String) : ∀ seen : List String,
    (∀ y ∈ validateIngredientsGo l seen, pyStrip y = y ∧ y ≠ "" ∧ pyLower y ∉ seen) ∧
    ((validateIngredientsGo l seen).map pyLower).Nodup := by
  induction l with
  | nil => intro seen; simp [validateIngredientsGo]
  | cons a rest ih =>
    intro seen
    simp only [validateIngredientsGo]
    by_cases hc : pyStrip a ≠ "" ∧ pyLower (pyStrip a) ∉ seen
    · rw [if_pos hc]
      obtain ⟨ih1, ih2⟩ := ih (pyLower (pyStrip a) :: seen)
      constructor
      · intro y hy
        rcases List.mem_cons.mp hy with rfl | hy'
        · exact ⟨pyStrip_idem a, hc.1, hc.2⟩
        · obtain ⟨h1, h2, h3⟩ := ih1 y hy'
          exact ⟨h1, h2, fun hmem => h3 (List.mem_cons_of_mem _ hmem)⟩
      · rw [List.map_cons, List.nodup_cons]
        refine ⟨?_, ih2⟩
        intro hmem
        obtain ⟨y, hy, hly⟩ := List.mem_map.mp hmem
        exact (ih1 y hy).2.2 (by rw [hly]; exact List.mem_cons_self _ _)
    · rw [if_neg hc]
      exact ih seen

theorem validateIngredientsGo_fixed (l : List String) : ∀ seen : List String,
    (∀ y ∈ l, pyStrip y = y ∧ y ≠ "" ∧ pyLower y ∉ seen) →
    (l.map pyLower).Nodup →
    validateIngredientsGo l seen = l := by
  induction l with
  | nil => intro seen _ _; rfl
  | cons a rest ih =>
    intro seen h1 h2
    obtain ⟨ha1, ha2, ha3⟩ := h1 a (List.mem_cons_self a rest)
    rw [List.map_cons, List.nodup_cons] at h2
    simp only [validateIngredientsGo, ha1]
    rw [if_pos ⟨ha2, ha3⟩]
    congr 1
    apply ih
    · intro y hy
      obtain ⟨hy1, hy2, hy3⟩ := h1 y (List.mem_cons_of_mem _ hy)
      refine ⟨hy1, hy2, ?_⟩
      intro hmem
      rcases List.mem_cons.mp hmem with heq | hmem'
      · exact h2.1 (heq ▸ List.mem_map_of_mem pyLower hy)
      · exact hy3 hmem'
    · exact h2.2

theorem validateIngredientsGo_sublist (l : List String) : ∀ seen : List String,
    List.Sublist (validateIngredientsGo l seen) (l.map pyStrip) := by
  induction l with
  | nil => intro seen; simp [validateIngredientsGo]
  | cons a rest ih =>
    intro seen
    simp only [validateIngredientsGo, List.map_cons]
    split
    · exact List.Sublist.cons₂ _ (ih _)
    · exact List.Sublist.cons _ (ih _)

/-- Claim C6: `validate_ingredients` trims entries, drops empties, and
de-duplicates case-insensitively keeping first-seen casing and first-seen
order (checked on the claim's concrete example), and it is idempotent;
moreover its output is always an order-preserving selection of the trimmed
input whose entries are nonempty, trimmed, and case-insensitively pairwise
distinct. -/
theorem c6_validate_ingredients_normalization :
    validate_ingredients ["Tomato", "tomato", " Onion ", "", "onion"] = ["Tomato", "Onion"] ∧
    (∀ l : List String, validate_ingredients (validate_ingredients l) = validate_ingredients l) ∧
    (∀ l : List String, List.Sublist (validate_ingredients l) (l.map pyStrip)) ∧
    (∀ l : List String, ∀ y ∈ validate_ingredients l, pyStrip y = y ∧ y ≠ "") ∧
    (∀ l : List String, ((validate_ingredients l).map pyLower).Nodup) := by
  refine ⟨by decide, ?_, fun l => validateIngredientsGo_sublist l [],
    fun l y hy => ⟨((validateIngredientsGo_spec l []).1 y hy).1,
      ((validateIngredientsGo_spec l []).1 y hy).2.1⟩,
    fun l => (validateIngredientsGo_spec l []).2⟩
  intro l
  obtain ⟨h1, h2⟩ := validateIngredientsGo_spec l []
  exact validateIngredientsGo_fixed _ []
    (fun y hy => ⟨(h1 y hy).1, (h1 y hy).2.1, by simp⟩) h2

/-- Witness for C6: the idempotence and element facts evaluated at a
concrete input. -/
theorem c6_witness :
    validate_ingredients (validate_ingredients [" a ", "A", ""]) =
      validate_ingredients [" a ", "A", ""] ∧
    ("a" ∈ validate_ingredients [" a ", "A", ""] ∧ pyStrip "a" = "a" ∧ ("a" : String) ≠ "") :=
  ⟨c6_validate_ingredients_normalization.2.1 [" a ", "A", ""],
   by decide,
   (c6_validate_ingredients_normalization.2.2.2.1 [" a ", "A", ""] "a" (by decide)).1,
   (c6_validate_ingredients_normalization.2.2.2.1 [" a ", "A", ""] "a" (by decide)).2⟩

/-- Claim C5: `validate_password_strength` checks, in order: length ≥ 8,
an uppercase letter, a lowercase letter, a digit, a special character, and
reports the first failing rule's reason; the claim's five concrete
examples, plus the characterization of acceptance. -/
theorem c5_validate_password_strength :
    validate_password_strength "ValidPass123!" = (true, "") ∧
    validate_password_strength "short1!" =
      (false, "Password must be at least 8 characters long") ∧
    validate_password_strength "alllowercase1!" =
      (false, "Password must contain at least one uppercase letter") ∧
    validate_password_strength "NoDigits!" =
      (false, "Password must contain at least one digit") ∧
    validate_password_strength "NoSpecial123" =
      (false, "Password must contain at least one special character") ∧
    (∀ p : String, (validate_password_strength p).1 = true ↔
      (8 ≤ p.length ∧ p.data.any Char.isUpper = true ∧ p.data.any Char.isLower = true ∧
       p.data.any Char.isDigit = true ∧
       p.data.any (fun c => specialChars.contains c) = true)) := by
  refine ⟨by decide, by decide, by decide, by decide, by decide, ?_⟩
  intro p
  unfold validate_password_strength
  split_ifs with h1 h2 h3 h4 h5 <;> simp_all

/-- Witness for C5: the acceptance characterization applied at a concrete
password. -/
theorem c5_witness : (validate_password_strength "Aa1!aaaa").1 = true :=
  (c5_validate_password_strength.2.2.2.2.2 "Aa1!aaaa").mpr (by decide)

/-- Claim C2: the parsed recipe always has at least 3 steps; when the
line-by-line parse recognizes fewer than 3 steps they are replaced by the
generic 3-step list naming the submitted ingredients, and when it
recognizes exactly 5 steps all 5 are returned unchanged. -/
theorem c2_recipe_step_count_floor (request : GeneratedRecipeRequest) (content : String) :
    3 ≤ (parseRecipeResponse request content).steps.length ∧
    ((rawParsedSteps request content).length < 3 →
      (parseRecipeResponse request content).steps = fallbackSteps request) ∧
    ((rawParsedSteps request content).length = 5 →
      (parseRecipeResponse request content).steps = rawParsedSteps request content) := by
  have hsplit : (parseRecipeResponse request content).steps =
      if (parseLoop request content).steps.length < 3 then fallbackSteps request
      else (parseLoop request content).steps := rfl
  have hraw : rawParsedSteps request content = (parseLoop request content).steps := rfl
  refine ⟨?_, ?_, ?_⟩
  · rw [hsplit]
    split
    · simp [fallbackSteps]
    · next h => omega
  · intro h
    rw [hraw] at h
    rw [hsplit, if_pos h]
  · intro h
    rw [hraw] at h
    rw [hsplit, hraw, if_neg (by omega)]

/-- Witness for C2: a concrete response with five parsed steps is returned
verbatim, and a concrete response with one parsed step triggers the
fallback list. -/
theorem c2_witness :
    (rawParsedSteps ⟨["rice", "eggs"], none, none⟩
        "TITLE: Test\nSTEPS:\n1. Chop\n2. Fry\n3. Mix\n4. Boil\n5. Serve").length = 5 ∧
    (parseRecipeResponse ⟨["rice", "eggs"], none, none⟩
        "TITLE: Test\nSTEPS:\n1. Chop\n2. Fry\n3. Mix\n4. Boil\n5. Serve").steps =
      rawParsedSteps ⟨["rice", "eggs"], none, none⟩
        "TITLE: Test\nSTEPS:\n1. Chop\n2. Fry\n3. Mix\n4. Boil\n5. Serve" ∧
    (rawParsedSteps ⟨["rice", "eggs"], none, none⟩ "STEPS:\n1. Chop").length < 3 ∧
    (parseRecipeResponse ⟨["rice", "eggs"], none, none⟩ "STEPS:\n1. Chop").steps =
      ["Prepare all ingredients: rice, eggs",
       "Follow the cooking process carefully",
       "Serve hot and enjoy!"] :=
  ⟨by decide,
   (c2_recipe_step_count_floor _ _).2.2 (by decide),
   by decide,
   (c2_recipe_step_count_floor _ _).2.1 (by decide)⟩

theorem retainLoop_eq (labels : List String) : ∀ probs : List ℚ,
    retainLoop labels probs =
      (((labels.zip probs).filter (fun q => confidence_threshold < q.2)).map Prod.fst,
       ((labels.zip probs).filter (fun q => confidence_threshold < q.2)).map Prod.snd) := by
  induction labels with
  | nil => intro probs; cases probs <;> simp [retainLoop]
  | cons lab labs ih =>
    intro probs
    cases probs with
    | nil => simp [retainLoop]
    | cons p ps =>
      simp only [retainLoop, List.zip_cons_cons, List.filter_cons]
      by_cases hc : confidence_threshold < p
      · simp [hc, ih]
      · simp [hc, ih]

theorem zip_map_fst_snd {α β : Type} : ∀ l : List (α × β),
    (l.map Prod.fst).zip (l.map Prod.snd) = l
  | [] => rfl
  | _ :: t => by simp [zip_map_fst_snd t]

/-- Claim C4: the local tier retains exactly the labels whose probability
exceeds 0.15, returns them sorted by descending probability truncated to
10, and reports the mean of the retained probabilities (0 when none
cleared the threshold). -/
theorem c4_local_detection_core (probabilities : List ℚ)
    (_hlen : probabilities.length = ingredient_labels.length) :
    detect_ingredients_local_core probabilities =
      (let retained := (ingredient_labels.zip probabilities).filter
          (fun q => (15/100 : ℚ) < q.2)
       ((((retained.mergeSort (fun a b => decide (b.2 ≤ a.2))).take 10).map Prod.fst),
        if retained = [] then 0
        else (retained.map Prod.snd).sum / (retained.length : ℚ))) := by
  rw [show ((15:ℚ)/100) = confidence_threshold from rfl]
  unfold detect_ingredients_local_core
  rw [retainLoop_eq]
  simp only []
  by_cases hr : (ingredient_labels.zip probabilities).filter
      (fun q => confidence_threshold < q.2) = []
  · rw [hr]
    simp
  · rw [if_pos (show ((ingredient_labels.zip probabilities).filter
        (fun q => confidence_threshold < q.2)).map Prod.fst ≠ [] by simpa using hr),
      if_neg hr, zip_map_fst_snd]
    simp

/-- Witness for C4: the characterization applied to a concrete probability
vector of the catalog's length. -/
theorem c4_witness :
    (List.replicate 78 ((1:ℚ)/10)).length = ingredient_labels.length ∧
    detect_ingredients_local_core (List.replicate 78 ((1:ℚ)/10)) =
      (let retained := (ingredient_labels.zip (List.replicate 78 ((1:ℚ)/10))).filter
          (fun q => (15/100 : ℚ) < q.2)
       ((((retained.mergeSort (fun a b => decide (b.2 ≤ a.2))).take 10).map Prod.fst),
        if retained = [] then 0
        else (retained.map Prod.snd).sum / (retained.length : ℚ))) :=
  ⟨by simp [ingredient_labels], c4_local_detection_core _ (by simp [ingredient_labels])⟩

theorem attachMessage_ingredients (m : MergedResult) :
    (attachMessage m).ingredients = m.ingredients := by
  unfold attachMessage; split <;> rfl

theorem attachMessage_confidence (m : MergedResult) :
    (attachMessage m).confidence = m.confidence := by
  unfold attachMessage; split <;> rfl

theorem attachMessage_source (m : MergedResult) :
    (attachMessage m).source = m.source := by
  unfold attachMessage; split <;> rfl

theorem merge_ingredients (lr oresr : List String × ℚ) :
    (merge_detection_results lr oresr).ingredients =
      validate_ingredients (lr.1 ++ oresr.1) := rfl

theorem merge_local_only (lr : List String × ℚ) (h : 0 < lr.2) :
    merge_detection_results lr ([], 0) =
      ⟨validate_ingredients lr.1, round2 lr.2, "local", lr.1.length, 0,
       (validate_ingredients lr.1).length, none⟩ := by
  unfold merge_detection_results
  simp only []
  rw [if_neg (by simp), if_neg (by simp), if_pos h]
  simp

theorem merge_hybrid (lr oresr : List String × ℚ) (h1 : 0 < lr.2) (h2 : 0 < oresr.2) :
    merge_detection_results lr oresr =
      ⟨validate_ingredients (lr.1 ++ oresr.1), round2 ((lr.2 + oresr.2) / 2), "hybrid",
       lr.1.length, oresr.1.length, (validate_ingredients (lr.1 ++ oresr.1)).length,
       none⟩ := by
  unfold merge_detection_results
  simp only []
  rw [if_pos ⟨h1, h2⟩]

/-- Claim C1 (amended: the merged confidence is the stated value rounded
to two decimals, as `merge_detection_results` rounds it): with the local
model enabled and loaded, a local result with confidence ≥ 0.40 and at
least one ingredient skips the vision tier and is reported with source
"local"; a low-confidence/empty local result runs the vision tier when a
client is configured, giving source "hybrid" and the rounded average
confidence when both confidences are non-zero; in every branch the merged
list is the shared normalization of the concatenation of the tier lists. -/
theorem c1_tier_selection_merge (cfg : DetectConfig) (lres ores : List String × ℚ)
    (hl : cfg.local_model_loaded = true) (hu : cfg.use_local_models = true) :
    ((40/100 : ℚ) ≤ lres.2 → lres.1 ≠ [] →
      (detect_ingredients cfg lres ores).openai_ran = false ∧
      (detect_ingredients cfg lres ores).merged.source = "local" ∧
      (detect_ingredients cfg lres ores).merged.confidence = round2 lres.2 ∧
      (detect_ingredients cfg lres ores).merged.ingredients =
        validate_ingredients lres.1) ∧
    ((lres.2 < 40/100 ∨ lres.1 = []) → cfg.openai_client = true →
      (detect_ingredients cfg lres ores).openai_ran = true ∧
      (detect_ingredients cfg lres ores).merged.ingredients =
        validate_ingredients (lres.1 ++ ores.1) ∧
      (0 < lres.2 → 0 < ores.2 →
        (detect_ingredients cfg lres ores).merged.source = "hybrid" ∧
        (detect_ingredients cfg lres ores).merged.confidence =
          round2 ((lres.2 + ores.2) / 2))) ∧
    ((lres.2 < 40/100 ∨ lres.1 = []) → cfg.openai_client = false →
      (detect_ingredients cfg lres ores).openai_ran = false ∧
      (detect_ingredients cfg lres ores).merged.ingredients =
        validate_ingredients lres.1) := by
  refine ⟨?_, ?_, ?_⟩
  · intro h1 h2
    have hcond : (40/100 : ℚ) ≤ lres.2 ∧ 0 < lres.1.length :=
      ⟨h1, List.length_pos.mpr h2⟩
    have hd : detect_ingredients cfg lres ores =
        ⟨attachMessage (merge_detection_results lres ([], 0)), true, false⟩ := by
      unfold detect_ingredients
      rw [if_pos ⟨hl, hu⟩, if_pos hcond]
    have hpos : 0 < lres.2 := lt_of_lt_of_le (by norm_num) h1
    rw [hd]
    refine ⟨rfl, ?_, ?_, ?_⟩
    · rw [attachMessage_source, merge_local_only lres hpos]
    · rw [attachMessage_confidence, merge_local_only lres hpos]
    · rw [attachMessage_ingredients, merge_ingredients]
      simp
  · intro h1 h2
    have hcond : ¬ ((40/100 : ℚ) ≤ lres.2 ∧ 0 < lres.1.length) := by
      rcases h1 with h | h
      · exact fun hc => absurd hc.1 (not_le.mpr h)
      · exact fun hc => by simp [h] at hc
    have hd : detect_ingredients cfg lres ores =
        ⟨attachMessage (merge_detection_results lres ores), true, true⟩ := by
      unfold detect_ingredients
      rw [if_pos ⟨hl, hu⟩, if_neg hcond, if_pos h2]
    rw [hd]
    refine ⟨rfl, ?_, ?_⟩
    · rw [attachMessage_ingredients, merge_ingredients]
    · intro hp1 hp2
      constructor
      · rw [attachMessage_source, merge_hybrid lres ores hp1 hp2]
      · rw [attachMessage_confidence, merge_hybrid lres ores hp1 hp2]
  · intro h1 h2
    have hcond : ¬ ((40/100 : ℚ) ≤ lres.2 ∧ 0 < lres.1.length) := by
      rcases h1 with h | h
      · exact fun hc => absurd hc.1 (not_le.mpr h)
      · exact fun hc => by simp [h] at hc
    have hd : detect_ingredients cfg lres ores =
        ⟨attachMessage (merge_detection_results lres ([], 0)), true, false⟩ := by
      unfold detect_ingredients
      rw [if_pos ⟨hl, hu⟩, if_neg hcond, if_neg (by simp [h2])]
    rw [hd]
    refine ⟨rfl, ?_⟩
    rw [attachMessage_ingredients, merge_ingredients]
    simp

/-- Counterexample to claim C1 as stated: a local-tier confidence of 5/12
(which is ≥ 0.40, with one ingredient found) produces merged source
"local" but merged confidence round(5/12, 2) = 21/50 ≠ 5/12, because
`merge_detection_results` rounds the reported confidence to two decimals. -/
theorem c1_counterexample :
    (40/100 : ℚ) ≤ 5/12 ∧
    (detect_ingredients ⟨true, true, true⟩ (["tomatoes"], 5/12) ([], 0)).merged.source =
      "local" ∧
    ¬ (detect_ingredients ⟨true, true, true⟩ (["tomatoes"], 5/12)
        ([], 0)).merged.confidence = (5/12 : ℚ) := by
  have hd : detect_ingredients ⟨true, true, true⟩ (["tomatoes"], 5/12) ([], 0) =
      ⟨attachMessage (merge_detection_results (["tomatoes"], 5/12) ([], 0)), true, false⟩ := by
    unfold detect_ingredients
    norm_num
  have hm := merge_local_only (["tomatoes"], 5/12) (by norm_num)
  refine ⟨by norm_num, ?_, ?_⟩
  · rw [hd, attachMessage_source, hm]
  · rw [hd, attachMessage_confidence, hm]
    norm_num [round2, roundHalfEven]

/-- Witness for C1: the amended statement applied at a concrete good-local
run and at a concrete hybrid run. -/
theorem c1_witness :
    ((detect_ingredients ⟨true, true, true⟩ (["tomatoes"], 1/2) ([], 0)).openai_ran = false ∧
     (detect_ingredients ⟨true, true, true⟩ (["tomatoes"], 1/2) ([], 0)).merged.source =
       "local" ∧
     (detect_ingredients ⟨true, true, true⟩ (["tomatoes"], 1/2) ([], 0)).merged.confidence =
       round2 (1/2) ∧
     (detect_ingredients ⟨true, true, true⟩ (["tomatoes"], 1/2) ([], 0)).merged.ingredients =
       validate_ingredients ["tomatoes"]) ∧
    ((detect_ingredients ⟨true, true, true⟩ (["rice"], 1/5) (["eggs"], 17/20)).openai_ran =
       true ∧
     (detect_ingredients ⟨true, true, true⟩ (["rice"], 1/5)
         (["eggs"], 17/20)).merged.ingredients =
       validate_ingredients (["rice"] ++ ["eggs"]) ∧
     ((detect_ingredients ⟨true, true, true⟩ (["rice"], 1/5)
          (["eggs"], 17/20)).merged.source = "hybrid" ∧
      (detect_ingredients ⟨true, true, true⟩ (["rice"], 1/5)
          (["eggs"], 17/20)).merged.confidence = round2 ((1/5 + 17/20) / 2))) := by
  constructor
  · exact (c1_tier_selection_merge ⟨true, true, true⟩ (["tomatoes"], 1/2) ([], 0) rfl
      rfl).1 (by norm_num) (by simp)
  · obtain ⟨ha, hb, hc⟩ := (c1_tier_selection_merge ⟨true, true, true⟩ (["rice"], 1/5)
      (["eggs"], 17/20) rfl rfl).2.1 (Or.inl (by norm_num)) rfl
    exact ⟨ha, hb, hc (by norm_num) (by norm_num)⟩

/-- Claim C3: with a baseline set (with nonnegative standard deviations),
the quick drift score is the maximum present-metric deviation, drift is
flagged exactly above the threshold, a confidence exactly at baseline mean
(with no latency supplied) scores 0.0 with no drift, the reported severity
is "high" above 0.3 and "medium" otherwise, and the persistent drift-event
list is untouched. -/
theorem c3_quick_drift_check (settings : MlopsSettings) (st : MonitorState)
    (model_name : String) (cm : CurrentMetrics) (b : Baseline)
    (hb : st.baseline_stats.lookup model_name = some b)
    (hcs : 0 ≤ b.confidence_std) (hls : 0 ≤ b.latency_std)
    (hthr : 0 ≤ settings.DRIFT_DETECTION_THRESHOLD) :
    (check_drift settings st model_name cm).1.drift_score =
      max (metricDeviation cm.confidence b.confidence_mean b.confidence_std)
        (metricDeviation cm.latency b.latency_mean b.latency_std) ∧
    ((check_drift settings st model_name cm).1.drift_detected = true ↔
      settings.DRIFT_DETECTION_THRESHOLD <
        (check_drift settings st model_name cm).1.drift_score) ∧
    (cm.confidence = some b.confidence_mean → cm.latency = none →
      (check_drift settings st model_name cm).1.drift_score = 0 ∧
      (check_drift settings st model_name cm).1.drift_detected = false) ∧
    (check_drift settings st model_name cm).1.severityReported =
      (if (check_drift settings st model_name cm).1.drift_detected then
        some (if (3/10 : ℚ) < (check_drift settings st model_name cm).1.drift_score
          then "high" else "medium")
       else none) ∧
    (check_drift settings st model_name cm).2.drift_events = st.drift_events := by
  have heps : (0:ℚ) < driftEpsilon := by norm_num [driftEpsilon]
  have hcd : 0 ≤ metricDeviation cm.confidence b.confidence_mean b.confidence_std := by
    unfold metricDeviation
    cases cm.confidence with
    | none => simp
    | some c => exact div_nonneg (abs_nonneg _) (by linarith)
  have hld : 0 ≤ metricDeviation cm.latency b.latency_mean b.latency_std := by
    unfold metricDeviation
    cases cm.latency with
    | none => simp
    | some c => exact div_nonneg (abs_nonneg _) (by linarith)
  have hmapc : ((cm.confidence.map
      (fun c => |c - b.confidence_mean| / (b.confidence_std + driftEpsilon))).getD 0) =
      metricDeviation cm.confidence b.confidence_mean b.confidence_std := by
    cases cm.confidence <;> rfl
  have hmapl : ((cm.latency.map
      (fun c => |c - b.latency_mean| / (b.latency_std + driftEpsilon))).getD 0) =
      metricDeviation cm.latency b.latency_mean b.latency_std := by
    cases cm.latency <;> rfl
  have hck : check_drift settings st model_name cm =
      (⟨decide (settings.DRIFT_DETECTION_THRESHOLD <
          max (metricDeviation cm.confidence b.confidence_mean b.confidence_std)
            (metricDeviation cm.latency b.latency_mean b.latency_std)),
        max (metricDeviation cm.confidence b.confidence_mean b.confidence_std)
          (metricDeviation cm.latency b.latency_mean b.latency_std),
        "quick_check",
        cm.confidence.map
          (fun c => |c - b.confidence_mean| / (b.confidence_std + driftEpsilon)),
        cm.latency.map
          (fun c => |c - b.latency_mean| / (b.latency_std + driftEpsilon)),
        settings.DRIFT_DETECTION_THRESHOLD,
        if settings.DRIFT_DETECTION_THRESHOLD <
            max (metricDeviation cm.confidence b.confidence_mean b.confidence_std)
              (metricDeviation cm.latency b.latency_mean b.latency_std) then
          some (if (3/10 : ℚ) <
              max (metricDeviation cm.confidence b.confidence_mean b.confidence_std)
                (metricDeviation cm.latency b.latency_mean b.latency_std)
            then "high" else "medium")
        else none⟩, st) := by
    unfold check_drift
    simp only [hb, Option.getD_some, hmapc, hmapl, decide_eq_true_eq]
    rw [max_eq_right hcd]
  rw [hck]
  refine ⟨rfl, by simp, ?_, by simp, rfl⟩
  intro hc hl
  rw [hc] at hmapc hck ⊢
  rw [hl] at hmapl hck ⊢
  have h0 : metricDeviation (some b.confidence_mean) b.confidence_mean b.confidence_std
      = 0 := by
    unfold metricDeviation
    simp
  have h0l : metricDeviation (none : Option ℚ) b.latency_mean b.latency_std = 0 := rfl
  constructor
  · rw [h0, h0l]
    simp
  · rw [h0, h0l]
    simpa using not_lt.mpr hthr

/-- Witness for C3: with the default settings and the default baseline, a
confidence reading exactly at the baseline mean scores 0, flags no drift,
and leaves the drift-event list untouched. -/
theorem c3_witness :
    (check_drift defaultMlopsSettings ⟨[("m", ⟨7/10, 3/20, 2, 1/2⟩)], []⟩ "m"
        ⟨some (7/10), none⟩).1.drift_score = 0 ∧
    (check_drift defaultMlopsSettings ⟨[("m", ⟨7/10, 3/20, 2, 1/2⟩)], []⟩ "m"
        ⟨some (7/10), none⟩).1.drift_detected = false ∧
    (check_drift defaultMlopsSettings ⟨[("m", ⟨7/10, 3/20, 2, 1/2⟩)], []⟩ "m"
        ⟨some (7/10), none⟩).2.drift_events = [] := by
  have h := c3_quick_drift_check defaultMlopsSettings ⟨[("m", ⟨7/10, 3/20, 2, 1/2⟩)], []⟩
    "m" ⟨some (7/10), none⟩ ⟨7/10, 3/20, 2, 1/2⟩ rfl (by norm_num) (by norm_num)
    (by norm_num [defaultMlopsSettings])
  obtain ⟨h3a, h3b⟩ := h.2.2.1 rfl rfl
  exact ⟨h3a, h3b, h.2.2.2.2⟩

/-- Claim C7: with no signing secret, token creation fails loudly while
decoding fails softly; decoding is total (never raises) and returns the
claims only when verification succeeds, failing on a wrong secret or an
expired token; tokens minted by `create_access_token` decode (while
fresh) to a payload with `type = "access"`, those from
`create_refresh_token` to `type = "refresh"`. -/
theorem c7_jwt_failure_policy (env : JwtEnv) (data : List (String × String))
    (tok : JwtToken) (now : Nat) (d : Option Nat) :
    (env.jwt_secret_key = none →
      (∃ e, create_access_token env data d now = .error e) ∧
      (∃ e, create_refresh_token env data now = .error e) ∧
      decode_token env tok now = none) ∧
    (∀ secret payload tsecret, env.jwt_secret_key = some secret →
      tok = .signed payload tsecret →
      (tsecret ≠ secret → decode_token env tok now = none) ∧
      (payload.exp ≤ now → decode_token env tok now = none) ∧
      (tsecret = secret → now < payload.exp → decode_token env tok now = some payload)) ∧
    (∀ secret, env.jwt_secret_key = some secret →
      (∃ p, create_access_token env data none now = .ok (.signed p secret) ∧
        p.type = "access" ∧ p.data = data ∧
        decode_token env (.signed p secret) now = some p) ∧
      (∃ p, create_refresh_token env data now = .ok (.signed p secret) ∧
        p.type = "refresh" ∧ p.data = data ∧
        decode_token env (.signed p secret) now = some p)) := by
  refine ⟨?_, ?_, ?_⟩
  · intro h
    refine ⟨⟨"JWT_SECRET_KEY environment variable is not set", ?_⟩,
      ⟨"JWT_SECRET_KEY environment variable is not set", ?_⟩, ?_⟩ <;>
      simp [create_access_token, create_refresh_token, decode_token, h]
  · intro secret payload tsecret hs ht
    subst ht
    refine ⟨?_, ?_, ?_⟩
    · intro hne
      simp [decode_token, hs, jwtDecode, hne]
    · intro hexp
      simp [decode_token, hs, jwtDecode, Nat.not_lt.mpr hexp]
    · intro heq hfresh
      simp [decode_token, hs, jwtDecode, heq, hfresh]
  · intro secret hs
    constructor
    · refine ⟨⟨data, now + ACCESS_TOKEN_EXPIRE_MINUTES * 60, "access"⟩, ?_, rfl, rfl, ?_⟩
      · simp [create_access_token, hs, jwtEncode]
      · simp [decode_token, hs, jwtDecode, ACCESS_TOKEN_EXPIRE_MINUTES]
    · refine ⟨⟨data, now + REFRESH_TOKEN_EXPIRE_DAYS * 86400, "refresh"⟩, ?_, rfl, rfl, ?_⟩
      · simp [create_refresh_token, hs, jwtEncode]
      · simp [decode_token, hs, jwtDecode, REFRESH_TOKEN_EXPIRE_DAYS]

/-- Witness for C7: the failure and round-trip facts at concrete inputs. -/
theorem c7_witness :
    ((∃ e, create_access_token ⟨none⟩ [("sub", "a@b.c")] none 1000 = .error e) ∧
     (∃ e, create_refresh_token ⟨none⟩ [("sub", "a@b.c")] 1000 = .error e) ∧
     decode_token ⟨none⟩ (.signed ⟨[], 2000, "access"⟩ "s") 1000 = none) ∧
    decode_token ⟨some "other"⟩ (.signed ⟨[], 2000, "access"⟩ "s") 1000 = none ∧
    decode_token ⟨some "s"⟩ (.signed ⟨[], 900, "access"⟩ "s") 1000 = none ∧
    (∃ p, create_access_token ⟨some "s"⟩ [("sub", "a@b.c")] none 1000 =
        .ok (.signed p "s") ∧ p.type = "access" ∧ p.data = [("sub", "a@b.c")] ∧
      decode_token ⟨some "s"⟩ (.signed p "s") 1000 = some p) ∧
    (∃ p, create_refresh_token ⟨some "s"⟩ [("sub", "a@b.c")] 1000 =
        .ok (.signed p "s") ∧ p.type = "refresh" ∧ p.data = [("sub", "a@b.c")] ∧
      decode_token ⟨some "s"⟩ (.signed p "s") 1000 = some p) := by
  refine ⟨(c7_jwt_failure_policy ⟨none⟩ [("sub", "a@b.c")]
      (.signed ⟨[], 2000, "access"⟩ "s") 1000 none).1 rfl, ?_, ?_, ?_, ?_⟩
  · exact ((c7_jwt_failure_policy ⟨some "other"⟩ [] (.signed ⟨[], 2000, "access"⟩ "s")
      1000 none).2.1 "other" ⟨[], 2000, "access"⟩ "s" rfl rfl).1 (by decide)
  · exact ((c7_jwt_failure_policy ⟨some "s"⟩ [] (.signed ⟨[], 900, "access"⟩ "s")
      1000 none).2.1 "s" ⟨[], 900, "access"⟩ "s" rfl rfl).2.1 (by decide)
  · exact ((c7_jwt_failure_policy ⟨some "s"⟩ [("sub", "a@b.c")]
      (.signed ⟨[], 2000, "access"⟩ "s") 1000 none).2.2 "s" rfl).1
  · exact ((c7_jwt_failure_policy ⟨some "s"⟩ [("sub", "a@b.c")]
      (.signed ⟨[], 2000, "access"⟩ "s") 1000 none).2.2 "s" rfl).2

theorem deleteOneUser_count (users : List UserDoc) (uid : String)
    (h : ∃ u ∈ users, u.id = uid) : (deleteOneUser users uid).2 = 1 := by
  induction users with
  | nil => simp at h
  | cons u rest ih =>
    simp only [deleteOneUser]
    by_cases hu : u.id = uid
    · rw [if_pos hu]
    · rw [if_neg hu]
      rcases h with ⟨v, hv, hvid⟩
      rcases List.mem_cons.mp hv with rfl | hv'
      · exact absurd hvid hu
      · exact ih ⟨v, hv', hvid⟩

theorem deleteOneUser_no_match (users : List UserDoc) (uid : String)
    (hnodup : (users.map UserDoc.id).Nodup) :
    ∀ v ∈ (deleteOneUser users uid).1, v.id ≠ uid := by
  induction users with
  | nil => simp [deleteOneUser]
  | cons u rest ih =>
    rw [List.map_cons, List.nodup_cons] at hnodup
    simp only [deleteOneUser]
    by_cases hu : u.id = uid
    · rw [if_pos hu]
      intro v hv hvid
      exact hnodup.1 (hu ▸ hvid ▸ List.mem_map_of_mem UserDoc.id hv)
    · rw [if_neg hu]
      intro v hv
      rcases List.mem_cons.mp hv with rfl | hv'
      · exact hu
      · exact ih hnodup.2 v hv'

/-- Claim C8: deleting an existing user's account removes the user
document and every generated recipe owned by that user: the deletion
reports success, a subsequent lookup of the user finds nothing, an
owner-scoped lookup of any recipe id for that user finds nothing, and the
remaining recipes are exactly those of other users. -/
theorem c8_account_deletion_cascade (db : Db) (uid : String)
    (hexists : ∃ u ∈ db.users, u.id = uid)
    (hnodup : (db.users.map UserDoc.id).Nodup) :
    (delete_user_account db uid).1 = true ∧
    findUserById (delete_user_account db uid).2 uid = none ∧
    (∀ rid : String, findUserRecipe (delete_user_account db uid).2 uid rid = none) ∧
    (delete_user_account db uid).2.generated_recipes =
      db.generated_recipes.filter (fun r => ¬ r.user_id = uid) := by
  have hc := deleteOneUser_count db.users uid hexists
  have hd : delete_user_account db uid =
      (true, ⟨(deleteOneUser db.users uid).1,
        db.generated_recipes.filter (fun r => ¬ r.user_id = uid)⟩) := by
    unfold delete_user_account
    simp only []
    rw [hc]
    simp
  rw [hd]
  refine ⟨rfl, ?_, ?_, rfl⟩
  · apply List.find?_eq_none.mpr
    intro v hv
    simpa using deleteOneUser_no_match db.users uid hnodup v hv
  · intro rid
    apply List.find?_eq_none.mpr
    intro r hr
    have := List.of_mem_filter hr
    simp at this ⊢
    intro _
    exact this

/-- Witness for C8: the cascade on a concrete two-user database. -/
theorem c8_witness :
    (delete_user_account ⟨[⟨"u1", "a@b.c"⟩, ⟨"u2", "c@d.e"⟩],
        [⟨"r1", "u1"⟩, ⟨"r2", "u2"⟩, ⟨"r3", "u1"⟩]⟩ "u1").1 = true ∧
    findUserById (delete_user_account ⟨[⟨"u1", "a@b.c"⟩, ⟨"u2", "c@d.e"⟩],
        [⟨"r1", "u1"⟩, ⟨"r2", "u2"⟩, ⟨"r3", "u1"⟩]⟩ "u1").2 "u1" = none ∧
    findUserRecipe (delete_user_account ⟨[⟨"u1", "a@b.c"⟩, ⟨"u2", "c@d.e"⟩],
        [⟨"r1", "u1"⟩, ⟨"r2", "u2"⟩, ⟨"r3", "u1"⟩]⟩ "u1").2 "u1" "r1" = none ∧
    (delete_user_account ⟨[⟨"u1", "a@b.c"⟩, ⟨"u2", "c@d.e"⟩],
        [⟨"r1", "u1"⟩, ⟨"r2", "u2"⟩, ⟨"r3", "u1"⟩]⟩ "u1").2.generated_recipes =
      [⟨"r2", "u2"⟩] := by
  have h := c8_account_deletion_cascade ⟨[⟨"u1", "a@b.c"⟩, ⟨"u2", "c@d.e"⟩],
      [⟨"r1", "u1"⟩, ⟨"r2", "u2"⟩, ⟨"r3", "u1"⟩]⟩ "u1"
    ⟨⟨"u1", "a@b.c"⟩, by simp, rfl⟩ (by simp)
  refine ⟨h.1, h.2.1, h.2.2.1 "r1", ?_⟩
  rw [h.2.2.2]
  rfl

theorem foldl_timeBucket : ∀ (times : List Int) (acc : TimeDistribution × List Int),
    times.foldl timeBucketStep acc =
      (⟨acc.1.under_30 + (times.filter (fun t => 0 < t)).countP (fun t => t < 30),
        acc.1.thirty_sixty +
          (times.filter (fun t => 0 < t)).countP (fun t => 30 ≤ t ∧ t ≤ 60),
        acc.1.over_60 + (times.filter (fun t => 0 < t)).countP (fun t => 60 < t)⟩,
       acc.2 ++ times.filter (fun t => 0 < t))
  | [], acc => by simp
  | t :: rest, acc => by
    rw [List.foldl_cons, foldl_timeBucket rest _]
    unfold timeBucketStep
    by_cases hpos : 0 < t
    · rw [if_pos hpos]
      rw [List.filter_cons_of_pos (by simpa using hpos)]
      by_cases h30 : t < 30
      · rw [if_pos h30]
        simp only [List.countP_cons]
        simp [h30, show ¬ (30 ≤ t ∧ t ≤ 60) by omega, show ¬ (60 < t) by omega]
        omega
      · rw [if_neg h30]
        by_cases h60 : t ≤ 60
        · rw [if_pos h60]
          simp only [List.countP_cons]
          simp [h30, show (30 ≤ t ∧ t ≤ 60) by omega, show ¬ (60 < t) by omega]
          omega
        · rw [if_neg h60]
          simp only [List.countP_cons]
          simp [h30, show ¬ (30 ≤ t ∧ t ≤ 60) by omega, show (60 < t) by omega]
          omega
    · rw [if_neg hpos]
      rw [List.filter_cons_of_neg (by simpa using hpos)]

/-- Claim C9 (amended: only the recipes with a positive estimated time
are counted — a document whose `estimated_time` is 0 or negative, such as
the `.get(..., 0)` default for an absent field or a parsed "TIME: 0",
which the pipeline persists unvalidated, is silently excluded from both
the buckets and the average): the positive times below 30 land in
`under_30`, those in [30, 60] in `30_60`, those above 60 in `over_60`,
and `avg_cooking_time` is the mean of the positive times rounded to one
decimal, absent when there is none. -/
theorem c9_cuisine_time_distribution (times : List Int) :
    cuisineTimeStats times =
      (⟨(times.filter (fun t => 0 < t)).countP (fun t => t < 30),
        (times.filter (fun t => 0 < t)).countP (fun t => 30 ≤ t ∧ t ≤ 60),
        (times.filter (fun t => 0 < t)).countP (fun t => 60 < t)⟩,
       if times.filter (fun t => 0 < t) ≠ [] then
         some (round1
           ((((times.filter (fun t => 0 < t)).map (fun t => (t : ℚ))).sum) /
             (((times.filter (fun t => 0 < t)).length : ℚ))))
       else none) := by
  unfold cuisineTimeStats
  rw [foldl_timeBucket]
  simp

/-- Counterexample to claim C9 as stated: two matching recipes with
estimated times 0 and 10 (a zero time is reachable — the parser accepts
"TIME: 0" and the document is persisted without shape validation). The
claim places both times, each below 30, in `under_30` (count 2) and
averages both (5.0); the code drops the zero and reports `under_30 = 1`
with `avg_cooking_time = 10.0`. -/
theorem c9_counterexample :
    cuisineTimeStats [0, 10] = (⟨1, 0, 0⟩, some 10) ∧
    (([0, 10] : List Int).countP (fun t => t < 30) = 2 ∧
     round1 (((([0, 10] : List Int).map (fun t => (t : ℚ))).sum) /
       ((([0, 10] : List Int).length : ℚ))) = 5) ∧
    ¬ ((1 : Nat) = 2 ∧ (10 : ℚ) = 5) := by
  refine ⟨?_, ⟨by decide, ?_⟩, by norm_num⟩
  · unfold cuisineTimeStats timeBucketStep
    norm_num [round1, roundHalfEven]
  · norm_num [round1, roundHalfEven]

/-- Witness for C9: the claim's concrete instance — cooking times
[10, 25, 45, 70, 90] (all positive) bucket as 2 / 1 / 2 with average
48.0. -/
theorem c9_witness :
    cuisineTimeStats [10, 25, 45, 70, 90] = (⟨2, 1, 2⟩, some 48) := by
  have h := c9_cuisine_time_distribution [10, 25, 45, 70, 90]
  have hfil : List.filter (fun t => decide (0 < t)) ([10, 25, 45, 70, 90] : List Int) =
      [10, 25, 45, 70, 90] := by decide
  have hc1 : List.countP (fun t => decide (t < 30)) ([10, 25, 45, 70, 90] : List Int) =
      2 := by decide
  have hc2 : List.countP (fun t => decide (30 ≤ t ∧ t ≤ 60))
      ([10, 25, 45, 70, 90] : List Int) = 1 := by decide
  have hc3 : List.countP (fun t => decide (60 < t)) ([10, 25, 45, 70, 90] : List Int) =
      2 := by decide
  have hsum : (([10, 25, 45, 70, 90] : List Int).map (fun t => (t : ℚ))).sum = 240 := by
    norm_num
  rw [h, hfil, hc1, hc2, hc3, hsum]
  norm_num [round1, roundHalfEven]
  intro hcontra
  simp at hcontra

theorem multiLoop_confidence (files : List UploadFileModel) :
    (multiLoop files).2 =
      ((files.filter (fun f => f.valid)).map (fun f => f.confidence)).sum := by
  induction files with
  | nil => rfl
  | cons f rest ih =>
    simp only [multiLoop, List.filter_cons]
    by_cases hv : f.valid <;> simp [hv, ih]

/-- Rounding half to even moves a rational up by at most one half. -/
theorem roundHalfEven_le (x : ℚ) : (roundHalfEven x : ℚ) ≤ x + 1/2 := by
  unfold roundHalfEven
  simp only []
  have h1 : ((⌊x⌋ : ℚ)) ≤ x := Int.floor_le x
  have h2 : x < (⌊x⌋ : ℚ) + 1 := Int.lt_floor_add_one x
  split_ifs <;> push_cast <;> linarith

/-- Python's `round(x, 2)` moves a rational up by at most 1/200. -/
theorem round2_le (x : ℚ) : round2 x ≤ x + 1/200 := by
  unfold round2
  rw [div_le_iff₀ (by norm_num : (0:ℚ) < 100)]
  have := roundHalfEven_le (x * 100)
  linarith

/-- Claim C10: an invalid file is skipped, contributing no ingredients
and no confidence, yet the reported `average_confidence` is
`round(total_confidence / len(files), 2)` with the divisor counting every
submitted file; and for every batch the endpoint accepts (at most 5
files) holding at least one invalid file and at least one valid file of
positive confidence — where, as `detect_ingredients` guarantees, each
per-file confidence is either 0 or at least 0.15 — the reported (rounded)
average is strictly smaller than the mean confidence over the files
actually processed: the dilution gap is at least 0.15/20 = 0.0075, which
beats the largest possible two-decimal rounding bump of 0.005. -/
theorem c10_multi_upload_reported_average (files : List UploadFileModel)
    (hlen : files.length ≤ 5)
    (hinv : ∃ f ∈ files, f.valid = false)
    (hval : ∃ f ∈ files, f.valid = true ∧ 0 < f.confidence)
    (hreach : ∀ f ∈ files, f.confidence = 0 ∨ 3/20 ≤ f.confidence) :
    (upload_multiple_images files = some ⟨files.length,
      dedupIngredients (multiLoop files).1 [],
      round2 ((((files.filter (fun f => f.valid)).map (fun f => f.confidence)).sum) /
        (files.length : ℚ))⟩) ∧
    (round2 ((((files.filter (fun f => f.valid)).map (fun f => f.confidence)).sum) /
        (files.length : ℚ)) < processedMeanConfidence files) := by
  obtain ⟨f₀, hf₀, hf₀v⟩ := hinv
  obtain ⟨f₁, hf₁, hf₁v, hf₁c⟩ := hval
  have hnn : ∀ f ∈ files, 0 ≤ f.confidence := by
    intro f hf
    rcases hreach f hf with h | h
    · rw [h]
    · linarith
  have hne : files ≠ [] := by
    intro h; rw [h] at hf₀; simp at hf₀
  have hmem₁ : f₁ ∈ files.filter (fun f => f.valid) :=
    List.mem_filter.mpr ⟨hf₁, by simp [hf₁v]⟩
  have hkpos : 0 < (files.filter (fun f => f.valid)).length :=
    List.length_pos.mpr (fun h => by rw [h] at hmem₁; simp at hmem₁)
  have hkn : (files.filter (fun f => f.valid)).length < files.length := by
    apply List.length_filter_lt_length_iff_exists.mpr
    exact ⟨f₀, hf₀, by simp [hf₀v]⟩
  have hT15 : (3:ℚ)/20 ≤ ((files.filter (fun f => f.valid)).map
      (fun f => f.confidence)).sum := by
    have hle : f₁.confidence ≤ ((files.filter (fun f => f.valid)).map
        (fun f => f.confidence)).sum := by
      apply List.single_le_sum
      · intro x hx
        obtain ⟨g, hg, rfl⟩ := List.mem_map.mp hx
        exact hnn g (List.mem_filter.mp hg).1
      · exact List.mem_map_of_mem _ hmem₁
    rcases hreach f₁ hf₁ with h | h
    · rw [h] at hf₁c; exact absurd hf₁c (lt_irrefl 0)
    · linarith
  constructor
  · unfold upload_multiple_images
    rw [if_neg (by omega)]
    simp only [hne, if_pos, ne_eq, not_false_eq_true, if_true]
    rw [multiLoop_confidence]
  · unfold processedMeanConfidence
    set T := ((files.filter (fun f => f.valid)).map (fun f => f.confidence)).sum
      with hTdef
    set k := (files.filter (fun f => f.valid)).length with hkdef
    set n := files.length with hndef
    have hk1 : (1:ℚ) ≤ (k:ℚ) := by exact_mod_cast hkpos
    have hkq : (0:ℚ) < (k:ℚ) := by linarith
    have hnq : (0:ℚ) < (n:ℚ) := by
      have : k < n := hkn
      have h1 : (k:ℚ) < (n:ℚ) := by exact_mod_cast this
      linarith
    have hk4 : (k:ℚ) ≤ 4 := by
      have : k ≤ 4 := by omega
      exact_mod_cast this
    have hn5 : (n:ℚ) ≤ 5 := by exact_mod_cast hlen
    have hkn1 : (k:ℚ) + 1 ≤ (n:ℚ) := by
      have : k + 1 ≤ n := hkn
      exact_mod_cast this
    have hgap : T / (k:ℚ) - T / (n:ℚ) = T * ((n:ℚ) - (k:ℚ)) / ((k:ℚ) * (n:ℚ)) := by
      field_simp
      ring
    have hnum : (3:ℚ)/20 ≤ T * ((n:ℚ) - (k:ℚ)) := by
      have h1 : (3:ℚ)/20 * 1 ≤ T * ((n:ℚ) - (k:ℚ)) := by
        apply mul_le_mul hT15 (by linarith) (by norm_num) (by linarith)
      linarith
    have hden : (k:ℚ) * (n:ℚ) ≤ 20 := by nlinarith
    have hgap2 : (3:ℚ)/400 ≤ T * ((n:ℚ) - (k:ℚ)) / ((k:ℚ) * (n:ℚ)) := by
      rw [le_div_iff₀ (by positivity)]
      nlinarith
    have hr2 := round2_le (T / (n:ℚ))
    linarith

/-- Witness for C10: a concrete accepted batch — one invalid file and one
valid file at confidence 1/2 — where the reported average
round(0.25, 2) = 0.25 is strictly below the processed mean 0.5. -/
theorem c10_witness :
    upload_multiple_images [⟨false, [], 0⟩, ⟨true, ["rice"], 1/2⟩] =
      some ⟨2, dedupIngredients
        (multiLoop [⟨false, [], 0⟩, ⟨true, ["rice"], 1/2⟩]).1 [],
        round2 ((((([⟨false, [], 0⟩, ⟨true, ["rice"], 1/2⟩] :
            List UploadFileModel).filter (fun f => f.valid)).map
          (fun f => f.confidence)).sum) / 2)⟩ ∧
    round2 ((((([⟨false, [], 0⟩, ⟨true, ["rice"], 1/2⟩] :
        List UploadFileModel).filter (fun f => f.valid)).map
      (fun f => f.confidence)).sum) / 2) <
      processedMeanConfidence [⟨false, [], 0⟩, ⟨true, ["rice"], 1/2⟩] := by
  have h := c10_multi_upload_reported_average
    [⟨false, [], 0⟩, ⟨true, ["rice"], 1/2⟩] (by simp)
    ⟨⟨false, [], 0⟩, by simp, rfl⟩ ⟨⟨true, ["rice"], 1/2⟩, by simp, rfl, by norm_num⟩
    (by intro f hf; simp at hf; rcases hf with rfl | rfl <;> norm_num)
  exact h

end FlavourCraft
